import Mathlib

/-!
# UniversalInjectorFramework: proxy generator and real-library resolver

A shallow embedding of

* `src/ProxyGenerator/main.cpp` (`get_safe_name`, `enumerate_exports`,
  `generate_module_definition`, `generate_cpp_file`, `generate_header_file`,
  `generate_files`), and
* `src/UniversalInjectorFramework/injector.cpp` (`injector::load_real_library`).

Conventions.

* A `std::string` is a Lean `String`; one Lean `Char` stands for one C `char`.
* An `std::ofstream` is the text accumulated so far; `file << x` appends.
  A `for` loop that writes to the stream is a left fold over the vector.
* `size_t` arithmetic is arithmetic on `Nat` modulo `2 ^ bits`.
* A handle or an address is a `Nat`; `0` is `nullptr`.
* A `std::string` handed to a C interface through `c_str()` is read up to its
  first NUL character.
* Platform services (the ANSI code page, the file system, the system
  directory, `LoadLibraryA`) are explicit parameters.
-/

namespace UIF

/-! ## Data model -/

/-- The record `export_symbol` of `main.cpp`. -/
structure export_symbol where
  ordinal : Nat
  name : String
  safe_name : String
  has_name : Bool
deriving DecidableEq

/-- The part of the active ANSI code page the generator depends on: how the
characters outside the 7-bit range are classified and upper-cased. -/
structure CodePage where
  alnum_high : Char → Bool
  upper_high : Char → Char

/-- The Win32 predicate `IsCharAlphaNumericA`: on 7-bit characters exactly the
ASCII letters and digits, on the other characters whatever the code page says. -/
def IsCharAlphaNumericA (cp : CodePage) (ch : Char) : Bool :=
  if ch.toNat < 128 then ch.isAlphanum else cp.alnum_high ch

/-- The Win32 routine `CharUpperA` applied to a whole string buffer. -/
def CharUpperA (cp : CodePage) (s : String) : String :=
  String.mk (s.data.map (fun ch => if ch.toNat < 128 then ch.toUpper else cp.upper_high ch))

/-- The decimal text of an unsigned integer: `std::to_string` and `operator<<`. -/
def to_string (n : Nat) : String := Nat.repr n

/-! ## `get_safe_name` -/

/-- The range-for loop of `get_safe_name`, which overwrites the characters of
its by-value argument one after the other. -/
def get_safe_name_loop (cp : CodePage) : List Char → List Char
  | [] => []
  | ch :: rest =>
    (if !IsCharAlphaNumericA cp ch then '_' else ch) :: get_safe_name_loop cp rest

/-- The function `get_safe_name` of `main.cpp`. -/
def get_safe_name (cp : CodePage) (name : String) : String :=
  String.mk (get_safe_name_loop cp name.data)

/-- The sanitizer as the specification words it: every character is mapped to
itself when it is alphanumeric and to the fixed character `_` otherwise. -/
def sanitize_reference (cp : CodePage) (name : String) : String :=
  String.mk (name.data.map (fun ch => if IsCharAlphaNumericA cp ch then ch else '_'))

/-! ## `enumerate_exports` -/

/-- One entry of an export directory as it is handed to the enumeration
callback: the ordinal and the name, `none` for a null `pszName`. -/
structure ExportEntry where
  nOrdinal : Nat
  pszName : Option String
deriving DecidableEq

/-- The lambda `enum_proc` of `enumerate_exports`: appends one symbol to the
vector behind `pContext` and answers `true` (continue). -/
def enum_proc (cp : CodePage) (symbols : List export_symbol) (e : ExportEntry) :
    List export_symbol × Bool :=
  match e.pszName with
  | some pszName =>
    (symbols ++ [⟨e.nOrdinal, pszName, get_safe_name cp pszName, true⟩], true)
  | none =>
    let dummyName := "Ordinal" ++ to_string e.nOrdinal
    (symbols ++ [⟨e.nOrdinal, dummyName, dummyName, false⟩], true)

/-- The library routine `DetourEnumerateExports`: calls the callback on the
entries in order and stops as soon as the callback answers `false`. -/
def DetourEnumerateExports (callback : List export_symbol → ExportEntry → List export_symbol × Bool) :
    List ExportEntry → List export_symbol → List export_symbol
  | [], context => context
  | e :: rest, context =>
    match callback context e with
    | (context1, true) => DetourEnumerateExports callback rest context1
    | (context1, false) => context1

/-- The function `enumerate_exports` of `main.cpp`, on the export directory of
the loaded module. -/
def enumerate_exports (cp : CodePage) (directory : List ExportEntry) : List export_symbol :=
  DetourEnumerateExports (enum_proc cp) directory []

/-! ## The three generated texts -/

/-- The stream writes of `generate_module_definition` after a successful open. -/
def module_definition_text (dllName : String) (exports : List export_symbol) : String :=
  let file := ""
  let file := file ++ "LIBRARY " ++ dllName ++ "\n"
  let file := file ++ "EXPORTS\n"
  let file := exports.foldl (fun file symbol =>
    file ++ "\t" ++ symbol.name ++ "=lib_" ++ dllName ++ "_" ++ symbol.safe_name ++ " @"
      ++ to_string symbol.ordinal ++ (if symbol.has_name then "\n" else " NONAME\n")) file
  file

/-- Lines 91 to 93 of `generate_cpp_file`: the includes and the opening guard. -/
def emit_prologue (ucName : String) (file : String) : String :=
  let file := file ++ "#include \"pch.h\"\n\n"
  let file := file ++ "#ifdef UIF_LIB_" ++ ucName ++ "\n\n"
  let file := file ++ "#include \"injector.h\"\n\n"
  file

/-- Lines 94 to 102 of `generate_cpp_file`: the forwarding table. -/
def emit_table (dllName : String) (exports : List export_symbol) (file : String) : String :=
  let file := file ++ "struct \x7b\n"
  let file := file ++ "\tHMODULE dll;\n"
  let file := exports.foldl (fun file symbol =>
    file ++ "\tFARPROC " ++ symbol.safe_name ++ ";\n") file
  let file := file ++ "\x7d " ++ dllName ++ ";\n\n"
  file

/-- Lines 104 to 107 of `generate_cpp_file`: the trampolines. -/
def emit_trampolines (dllName : String) (exports : List export_symbol) (file : String) : String :=
  exports.foldl (fun file symbol =>
    file ++ "void lib_" ++ dllName ++ "_" ++ symbol.safe_name ++ "() \x7b " ++ dllName ++ "."
      ++ symbol.safe_name ++ "(); \x7d\n") file

/-- Lines 109 to 126 of `generate_cpp_file`: the load routine. -/
def emit_load_routine (dllName : String) (exports : List export_symbol) (file : String) : String :=
  let file := file ++ "\nbool load_library_" ++ dllName ++ "() \x7b\n"
  let file := file ++ "\t" ++ dllName ++ ".dll = uif::injector::instance().load_real_library(\""
    ++ dllName ++ ".dll\");\n"
  let file := exports.foldl (fun file symbol =>
    let file := file ++ "\t" ++ dllName ++ "." ++ symbol.safe_name ++ " = GetProcAddress("
      ++ dllName ++ ".dll, "
    if symbol.has_name then
      file ++ "\"" ++ symbol.safe_name ++ "\");\n"
    else
      file ++ "MAKEINTRESOURCEA(" ++ to_string symbol.ordinal ++ "));\n") file
  let file := file ++ "\treturn true;\n"
  let file := file ++ "\x7d\n\n"
  file

/-- Lines 127 to 131 of `generate_cpp_file`: the unload routine. -/
def emit_unload_routine (dllName : String) (file : String) : String :=
  let file := file ++ "bool unload_library_" ++ dllName ++ "() \x7b\n"
  let file := file ++ "\tFreeLibrary(" ++ dllName ++ ".dll);\n"
  let file := file ++ "\t" ++ dllName ++ ".dll = nullptr;\n"
  let file := file ++ "\treturn true;\n"
  let file := file ++ "\x7d\n\n"
  file

/-- Lines 132 to 139 of `generate_cpp_file`: the branch compiled when the
proxy is disabled. -/
def emit_disabled_branch (dllName : String) (file : String) : String :=
  let file := file ++ "#else\n\n"
  let file := file ++ "bool load_library_" ++ dllName ++ "() \x7b\n"
  let file := file ++ "\treturn false;\n"
  let file := file ++ "\x7d\n\n"
  let file := file ++ "bool unload_library_" ++ dllName ++ "() \x7b\n"
  let file := file ++ "\treturn false;\n"
  let file := file ++ "\x7d\n\n"
  let file := file ++ "#endif\n"
  file

/-- The stream writes of `generate_cpp_file` after a successful open. -/
def cpp_file_text (cp : CodePage) (dllName : String) (exports : List export_symbol) : String :=
  let ucName := CharUpperA cp dllName
  let file := ""
  let file := emit_prologue ucName file
  let file := emit_table dllName exports file
  let file := emit_trampolines dllName exports file
  let file := emit_load_routine dllName exports file
  let file := emit_unload_routine dllName file
  let file := emit_disabled_branch dllName file
  file

/-- The stream writes of `generate_header_file` after a successful open. -/
def header_file_text (dllName : String) : String :=
  let file := ""
  let file := file ++ "#pragma once\n\n"
  let file := file ++ "bool load_library_" ++ dllName ++ "();\n"
  let file := file ++ "bool unload_library_" ++ dllName ++ "();\n"
  file

/-! ## The output file system and the three generators -/

/-- The output directory as the generator sees it: which paths an
`std::ofstream` can open for writing, and what every file holds. -/
structure FileSystem where
  can_open : String → Bool
  contents : String → Option String

/-- The effect of a stream that was opened on `path` (truncating it), received
`text` and was closed. -/
def FileSystem.write (fs : FileSystem) (path text : String) : FileSystem :=
  ⟨fs.can_open, fun p => if p = path then some text else fs.contents p⟩

/-- The function `generate_module_definition` of `main.cpp`. -/
def generate_module_definition (fs : FileSystem) (dllName : String)
    (exports : List export_symbol) : Bool × FileSystem :=
  if !fs.can_open (dllName ++ ".def") then (false, fs)
  else (true, fs.write (dllName ++ ".def") (module_definition_text dllName exports))

/-- The function `generate_cpp_file` of `main.cpp`. -/
def generate_cpp_file (cp : CodePage) (fs : FileSystem) (dllName : String)
    (exports : List export_symbol) : Bool × FileSystem :=
  if !fs.can_open (dllName ++ ".cpp") then (false, fs)
  else (true, fs.write (dllName ++ ".cpp") (cpp_file_text cp dllName exports))

/-- The function `generate_header_file` of `main.cpp`. -/
def generate_header_file (fs : FileSystem) (dllName : String)
    (_exports : List export_symbol) : Bool × FileSystem :=
  if !fs.can_open (dllName ++ ".h") then (false, fs)
  else (true, fs.write (dllName ++ ".h") (header_file_text dllName))

/-! ## `size_t`, `find_last_of`, `substr` -/

/-- The constant `std::string::npos` for a `size_t` of `bits` bits. -/
def npos (bits : Nat) : Nat := 2 ^ bits - 1

/-- The greatest index whose character satisfies `p`, if there is one. -/
def last_index (p : Char → Bool) : List Char → Option Nat
  | [] => none
  | ch :: rest =>
    match last_index p rest with
    | some i => some (i + 1)
    | none => if p ch then some 0 else none

/-- The member `std::string::find_last_of(chars)`: the position of the last
character that occurs in `chars`, or `npos`. -/
def find_last_of (bits : Nat) (s : String) (chars : List Char) : Nat :=
  match last_index (fun ch => chars.contains ch) s.data with
  | some i => i
  | none => npos bits

/-- The member `std::string::substr(pos, count)`: `none` stands for the
`std::out_of_range` it throws when `pos` exceeds the length. -/
def substr (s : String) (pos count : Nat) : Option String :=
  if pos > s.length then none
  else some (String.mk ((s.data.drop pos).take (min count (s.length - pos))))

/-- Lines 160 to 164 of `generate_files`: the base name `dllName` computed from
the library path, in `size_t` arithmetic. -/
def dll_name_of_path (bits : Nat) (cp : CodePage) (dllPath : String) : Option String :=
  let startIndex := (find_last_of bits dllPath ['\\', '/'] + 1) % 2 ^ bits
  let endIndex := find_last_of bits dllPath ['.']
  let endIndex := if endIndex = npos bits then dllPath.length else endIndex
  (substr dllPath startIndex ((endIndex + 2 ^ bits - startIndex) % 2 ^ bits)).map
    (get_safe_name cp)

/-- Lines 166 to 175 of `generate_files`: the three generators in sequence,
stopping at the first that reports failure. -/
def generate_all (cp : CodePage) (fs : FileSystem) (dllName : String)
    (exports : List export_symbol) : Bool × FileSystem :=
  match generate_module_definition fs dllName exports with
  | (false, fs1) => (false, fs1)
  | (true, fs1) =>
    match generate_cpp_file cp fs1 dllName exports with
    | (false, fs2) => (false, fs2)
    | (true, fs2) =>
      match generate_header_file fs2 dllName exports with
      | (false, fs3) => (false, fs3)
      | (true, fs3) => (true, fs3)

/-- The function `generate_files` of `main.cpp`; `none` stands for an escaping
`std::out_of_range`. -/
def generate_files (bits : Nat) (cp : CodePage) (fs : FileSystem) (dllPath : String)
    (exports : List export_symbol) : Option (Bool × FileSystem) :=
  (dll_name_of_path bits cp dllPath).map (fun dllName => generate_all cp fs dllName exports)

/-- The file-name component of a path, in the words of the specification: what
follows the last directory separator. -/
def file_name_component (path : List Char) : List Char :=
  (path.reverse.takeWhile (fun ch => !(ch = '\\' || ch = '/'))).reverse

/-- A file name without its extension, in the words of the specification: the
part from the last `.` on is removed, and a name without `.` is kept whole. -/
def strip_extension (fileName : List Char) : List Char :=
  if '.' ∈ fileName then ((fileName.reverse.dropWhile (fun ch => ch != '.')).drop 1).reverse
  else fileName

/-- The base name as the specification derives it from a library path. -/
def base_name_reference (cp : CodePage) (dllPath : String) : String :=
  get_safe_name cp (String.mk (strip_extension (file_name_component dllPath.data)))

/-! ## The generated routines as programs

The load and unload routines are straight-line C++.  To speak about what they
do when the proxy runs, their statements are given as data, together with the
text each statement stands for and its effect on the proxy state. -/

/-- The statement forms that occur in a generated load or unload routine. -/
inductive Stmt where
  /-- The text `<base>.dll = uif::injector::instance().load_real_library("<file>");`. -/
  | load_real (file : String)
  /-- The text `<base>.<slot> = GetProcAddress(<base>.dll, "<procName>");`. -/
  | resolve_by_name (slot procName : String)
  /-- The text `<base>.<slot> = GetProcAddress(<base>.dll, MAKEINTRESOURCEA(<ordinal>));`. -/
  | resolve_by_ordinal (slot : String) (ordinal : Nat)
  /-- The text `FreeLibrary(<base>.dll);`. -/
  | free_library
  /-- The text `<base>.dll = nullptr;`. -/
  | clear_handle
  /-- The text `return <value>;`. -/
  | return_value (value : Bool)
deriving DecidableEq

/-- The line of C++ a statement stands for, in the routine of `dllName`. -/
def Stmt.render (dllName : String) : Stmt → String
  | .load_real file =>
    "\t" ++ dllName ++ ".dll = uif::injector::instance().load_real_library(\"" ++ file ++ "\");\n"
  | .resolve_by_name slot procName =>
    "\t" ++ dllName ++ "." ++ slot ++ " = GetProcAddress(" ++ dllName ++ ".dll, \"" ++ procName
      ++ "\");\n"
  | .resolve_by_ordinal slot ordinal =>
    "\t" ++ dllName ++ "." ++ slot ++ " = GetProcAddress(" ++ dllName ++ ".dll, MAKEINTRESOURCEA("
      ++ to_string ordinal ++ "));\n"
  | .free_library => "\tFreeLibrary(" ++ dllName ++ ".dll);\n"
  | .clear_handle => "\t" ++ dllName ++ ".dll = nullptr;\n"
  | .return_value true => "\treturn true;\n"
  | .return_value false => "\treturn false;\n"

/-- The text of a routine `bool <routine><dllName>()` with the given body. -/
def routine_text (routine dllName : String) (body : List Stmt) : String :=
  "bool " ++ routine ++ dllName ++ "() \x7b\n" ++ String.join (body.map (Stmt.render dllName))
    ++ "\x7d\n\n"

/-- The statement the load routine holds for one symbol. -/
def load_statement (symbol : export_symbol) : Stmt :=
  if symbol.has_name then .resolve_by_name symbol.safe_name symbol.safe_name
  else .resolve_by_ordinal symbol.safe_name symbol.ordinal

/-- The body of the generated load routine. -/
def load_program (dllName : String) (exports : List export_symbol) : List Stmt :=
  .load_real (dllName ++ ".dll") :: (exports.map load_statement ++ [.return_value true])

/-- The body of the generated unload routine. -/
def unload_program : List Stmt :=
  [.free_library, .clear_handle, .return_value true]

/-- The state of one proxy, the anonymous `struct` of the generated file: the
real-library handle and the forwarding-table slots by identifier, together
with the handles passed to `FreeLibrary` so far. -/
structure Binding where
  dll : Nat
  slots : String → Nat
  released : List Nat

/-- What the generated code calls into: the resolver and `GetProcAddress`. -/
structure Host where
  load_real_library : String → Nat
  proc_by_name : Nat → String → Nat
  proc_by_ordinal : Nat → Nat → Nat

/-- The effect of one statement on the proxy state. -/
def Stmt.exec (host : Host) (b : Binding) : Stmt → Binding
  | .load_real file => ⟨host.load_real_library file, b.slots, b.released⟩
  | .resolve_by_name slot procName =>
    ⟨b.dll, fun id => if id = slot then host.proc_by_name b.dll procName else b.slots id, b.released⟩
  | .resolve_by_ordinal slot ordinal =>
    ⟨b.dll, fun id => if id = slot then host.proc_by_ordinal b.dll ordinal else b.slots id,
      b.released⟩
  | .free_library => ⟨b.dll, b.slots, b.released ++ [b.dll]⟩
  | .clear_handle => ⟨0, b.slots, b.released⟩
  | .return_value _ => b

/-- The effect of a straight-line body whose only `return` is its last statement. -/
def run_program (host : Host) (b : Binding) (body : List Stmt) : Binding :=
  body.foldl (Stmt.exec host) b

/-! ## The configuration document and `injector::load_real_library` -/

/-- A JSON value as `nlohmann::json` holds it; an object keeps one value per key. -/
inductive Json where
  | null
  | boolean (b : Bool)
  | number_integer (n : Int)
  | number_float (ieee : Nat)
  | string (s : String)
  | array (items : List Json)
  | object (members : List (String × Json))

/-- The index an array reference token denotes: `0`, or digits without a
leading zero; any other token denotes none. -/
def array_index (token : String) : Option Nat :=
  match token.data with
  | [] => none
  | [ch] => if ch.isDigit then some (ch.toNat - 48) else none
  | ch :: rest =>
    if ch.isDigit && ch != '0' && rest.all Char.isDigit then
      some ((ch :: rest).foldl (fun acc d => acc * 10 + (d.toNat - 48)) 0)
    else none

/-- The value a JSON pointer, given by its reference tokens, resolves to. -/
def Json.resolve : List String → Json → Option Json
  | [], j => some j
  | token :: rest, .object members => (members.lookup token).bind (Json.resolve rest)
  | token :: rest, .array items =>
    (array_index token).bind (fun i => (items.get? i).bind (Json.resolve rest))
  | _ :: _, _ => none

/-- The member `contains(json_pointer)`. -/
def Json.contains (j : Json) (pointer : List String) : Bool :=
  (Json.resolve pointer j).isSome

/-- The literal `"/injector/real_library_location"_json_pointer`. -/
def real_library_location : List String := ["injector", "real_library_location"]

/-- A piece of console output: plain text, or text wrapped by one of the
colour helpers of `ansi.h`. -/
inductive ConsoleItem where
  | plain (text : String)
  | white (text : String)
  | red (text : String)
deriving DecidableEq

/-- How a call of `load_real_library` ends. -/
inductive Outcome where
  | returned (handle : Nat)
  | exit_process (status : Nat)
deriving DecidableEq

/-- Everything a call of `load_real_library` does that can be observed. -/
structure Trace where
  console : List ConsoleItem
  load_attempts : List String
  message_boxes : List (String × String)
  outcome : Outcome
deriving DecidableEq

/-- The member `std::string::c_str` as a callee reads it, and likewise a
`std::string` built from a `char` buffer: the characters before the first NUL. -/
def c_str (s : String) : String :=
  String.mk (s.data.takeWhile (fun ch => ch.toNat != 0))

/-- The platform under the resolver: the characters `GetSystemDirectoryA`
stores in the buffer and the result of `LoadLibraryA` for each C string. -/
structure Platform where
  system_directory : String
  LoadLibraryA : String → Nat

/-- Lines 185 to 201 of `injector::load_real_library`: the path of the real
library, from the configuration or else from the system directory. -/
def real_library_path (os : Platform) (config : Json) (dllName : String) : String :=
  let dllPath := ""
  let dllPath :=
    if config.contains real_library_location then
      match Json.resolve real_library_location config with
      | some (.string value) => value
      | _ => dllPath
    else dllPath
  let dllPath :=
    if dllPath.length = 0 then c_str os.system_directory ++ "\\" ++ dllName else dllPath
  dllPath

/-- The function `injector::load_real_library` of `injector.cpp`.  The trace
records what `LoadLibraryA` and `MessageBoxA` receive, which is the C string
behind `dllPath.c_str()` and `error.c_str()`. -/
def load_real_library (os : Platform) (config : Json) (dllName : String) : Trace :=
  let dllPath := real_library_path os config dllName
  let console := [ConsoleItem.white "[injector]", .plain " Loading original library from ",
    .plain dllPath, .plain "\n"]
  let result := os.LoadLibraryA (c_str dllPath)
  if result = 0 then
    let console := console ++ [ConsoleItem.white "[injector]", .red " Error:",
      .plain " Failed to load original library\n"]
    let error := "Unable to locate original library.\nPlease check the configuration file.\n\nPath: "
      ++ dllPath
    ⟨console, [c_str dllPath], [(c_str error, "Universal Injector")], .exit_process 1⟩
  else
    ⟨console, [c_str dllPath], [], .returned result⟩

/-! ## Auxiliary notions used in the statements -/

/-- The internal forwarder symbol the generator derives for a symbol. -/
def forwarder_symbol (dllName : String) (symbol : export_symbol) : String :=
  "lib_" ++ dllName ++ "_" ++ symbol.safe_name

/-- The number a string of decimal digits denotes. -/
def decimal_value (s : String) : Nat :=
  s.data.foldl (fun acc d => acc * 10 + (d.toNat - 48)) 0

/-- A code page that classifies no character above the 7-bit range as
alphanumeric and upper-cases none of them. -/
def ascii_code_page : CodePage := ⟨fun _ => false, fun ch => ch⟩

/-! ## Stream lemmas -/

theorem join_cons (a : String) (l : List String) : String.join (a :: l) = a ++ String.join l := by
  have key : ∀ (l : List String) (acc : String),
      List.foldl (fun r s => r ++ s) acc l = acc ++ List.foldl (fun r s => r ++ s) "" l := by
    intro l
    induction l with
    | nil => intro acc; simp
    | cons x xs ih =>
      intro acc
      simp only [List.foldl_cons]
      rw [ih (acc ++ x), ih ("" ++ x)]
      simp [String.append_assoc]
  unfold String.join
  simp only [List.foldl_cons]
  rw [key l ("" ++ a)]
  simp

theorem foldl_stream {α : Type} (g : α → String) (l : List α) (file : String) :
    l.foldl (fun file x => file ++ g x) file = file ++ String.join (l.map g) := by
  induction l generalizing file with
  | nil => simp [String.join]
  | cons x xs ih =>
    simp only [List.foldl_cons, List.map_cons]
    rw [ih, join_cons, String.append_assoc]

theorem join_append (l1 l2 : List String) :
    String.join (l1 ++ l2) = String.join l1 ++ String.join l2 := by
  induction l1 with
  | nil => simp [String.join]
  | cons x xs ih => simp only [List.cons_append, join_cons, ih, String.append_assoc]

theorem module_definition_text_eq (dllName : String) (exports : List export_symbol) :
    module_definition_text dllName exports =
      "LIBRARY " ++ dllName ++ "\n" ++ "EXPORTS\n" ++
        String.join (exports.map (fun s =>
          "\t" ++ s.name ++ "=" ++ forwarder_symbol dllName s ++ " @" ++ to_string s.ordinal
            ++ (if s.has_name then "" else " NONAME") ++ "\n")) := by
  unfold module_definition_text forwarder_symbol
  simp only []
  rw [← foldl_stream]
  congr 1
  · funext file s
    apply String.ext
    cases s.has_name <;> simp [String.data_append]

theorem emit_table_eq (dllName : String) (exports : List export_symbol) (file : String) :
    emit_table dllName exports file =
      file ++ ("struct \x7b\n" ++ "\tHMODULE dll;\n" ++
        String.join (exports.map (fun s => "\tFARPROC " ++ s.safe_name ++ ";\n")) ++ "\x7d "
          ++ dllName ++ ";\n\n") := by
  have hg : (fun (file : String) (symbol : export_symbol) =>
      file ++ "\tFARPROC " ++ symbol.safe_name ++ ";\n")
      = (fun file symbol => file ++ ("\tFARPROC " ++ symbol.safe_name ++ ";\n")) := by
    funext file symbol
    simp only [String.append_assoc]
  unfold emit_table
  simp only []
  rw [hg, foldl_stream]
  simp only [String.append_assoc]

theorem emit_trampolines_eq (dllName : String) (exports : List export_symbol) (file : String) :
    emit_trampolines dllName exports file =
      file ++ String.join (exports.map (fun s =>
        "void " ++ forwarder_symbol dllName s ++ "() \x7b " ++ dllName ++ "." ++ s.safe_name
          ++ "(); \x7d\n")) := by
  unfold emit_trampolines forwarder_symbol
  rw [← foldl_stream]
  congr 1
  funext file s
  apply String.ext
  simp [String.data_append]

theorem emit_load_routine_eq (dllName : String) (exports : List export_symbol) (file : String) :
    emit_load_routine dllName exports file =
      file ++ ("\n" ++ routine_text "load_library_" dllName (load_program dllName exports)) := by
  have hg : (fun (file : String) (symbol : export_symbol) =>
      let file := file ++ "\t" ++ dllName ++ "." ++ symbol.safe_name ++ " = GetProcAddress("
        ++ dllName ++ ".dll, "
      if symbol.has_name then
        file ++ "\"" ++ symbol.safe_name ++ "\");\n"
      else
        file ++ "MAKEINTRESOURCEA(" ++ to_string symbol.ordinal ++ "));\n")
      = (fun file symbol => file ++ (Stmt.render dllName ∘ load_statement) symbol) := by
    funext file symbol
    rcases symbol with ⟨o, n, sn, hn⟩
    apply String.ext
    cases hn <;> simp [String.data_append, Stmt.render, load_statement]
  unfold emit_load_routine routine_text load_program
  simp only []
  rw [hg, foldl_stream]
  simp only [List.map_cons, List.map_append, List.map_nil, join_cons, join_append, List.map_map]
  generalize String.join (List.map (Stmt.render dllName ∘ load_statement) exports) = body
  apply String.ext
  simp [String.data_append, Stmt.render, String.join]

theorem emit_unload_routine_eq (dllName : String) (file : String) :
    emit_unload_routine dllName file =
      file ++ routine_text "unload_library_" dllName unload_program := by
  unfold emit_unload_routine routine_text unload_program
  apply String.ext
  simp [String.data_append, Stmt.render, String.join]

theorem emit_disabled_branch_eq (dllName : String) (file : String) :
    emit_disabled_branch dllName file =
      file ++ ("#else\n\n" ++ routine_text "load_library_" dllName [.return_value false]
        ++ routine_text "unload_library_" dllName [.return_value false] ++ "#endif\n") := by
  unfold emit_disabled_branch routine_text
  apply String.ext
  simp [String.data_append, Stmt.render, String.join]

/-! ## Decimal text -/

theorem digitChar_value (m : Nat) (h : m < 10) : (Nat.digitChar m).toNat - 48 = m := by
  interval_cases m <;> rfl

theorem toDigitsCore_append (fuel : Nat) : ∀ (n : Nat) (ds : List Char),
    Nat.toDigitsCore 10 fuel n ds = Nat.toDigitsCore 10 fuel n [] ++ ds := by
  induction fuel with
  | zero => intro n ds; simp [Nat.toDigitsCore]
  | succ fuel ih =>
    intro n ds
    simp only [Nat.toDigitsCore]
    by_cases h : n / 10 = 0
    · simp [h]
    · simp only [h, if_false]
      rw [ih (n / 10) (Nat.digitChar (n % 10) :: ds), ih (n / 10) [Nat.digitChar (n % 10)]]
      simp

theorem toDigitsCore_value (fuel : Nat) : ∀ (n : Nat), n < fuel →
    (Nat.toDigitsCore 10 fuel n []).foldl (fun acc d => acc * 10 + (d.toNat - 48)) 0 = n := by
  induction fuel with
  | zero => intro n h; omega
  | succ fuel ih =>
    intro n h
    simp only [Nat.toDigitsCore]
    by_cases h0 : n / 10 = 0
    · simp only [h0, if_true, List.foldl_cons, List.foldl_nil]
      rw [digitChar_value _ (Nat.mod_lt _ (by norm_num))]
      omega
    · simp only [h0, if_false]
      rw [toDigitsCore_append, List.foldl_append, ih (n / 10) (by omega)]
      simp only [List.foldl_cons, List.foldl_nil]
      rw [digitChar_value _ (Nat.mod_lt _ (by norm_num))]
      omega

theorem decimal_value_to_string (n : Nat) : decimal_value (to_string n) = n := by
  unfold decimal_value to_string Nat.repr Nat.toDigits
  exact toDigitsCore_value (n + 1) n (Nat.lt_succ_self n)

theorem to_string_injective (a b : Nat) (h : to_string a = to_string b) : a = b := by
  have := congrArg decimal_value h
  rwa [decimal_value_to_string, decimal_value_to_string] at this

theorem ordinal_name_injective (a b : Nat)
    (h : "Ordinal" ++ to_string a = "Ordinal" ++ to_string b) : a = b := by
  apply to_string_injective
  apply String.ext
  have h2 := congrArg String.data h
  simp only [String.data_append] at h2
  exact List.append_cancel_left h2

/-! ## The sanitizer -/

theorem get_safe_name_loop_eq_map (cp : CodePage) (l : List Char) :
    get_safe_name_loop cp l = l.map (fun ch => if IsCharAlphaNumericA cp ch then ch else '_') := by
  induction l with
  | nil => rfl
  | cons ch rest ih =>
    simp only [get_safe_name_loop, List.map_cons, ih]
    cases IsCharAlphaNumericA cp ch <;> simp

/-- C5: `get_safe_name` coincides with the reference sanitizer (each character
kept when alphanumeric, replaced by `_` otherwise) on every input; its output
has the length of its input; a name made of alphanumeric characters only is
returned unchanged, and so is the empty name; and `Get@Proc!` becomes
`Get_Proc_`. -/
theorem get_safe_name_refines_reference (cp : CodePage) :
    (∀ name, get_safe_name cp name = sanitize_reference cp name) ∧
    (∀ name, (get_safe_name cp name).length = name.length) ∧
    (∀ name, (∀ ch ∈ name.data, IsCharAlphaNumericA cp ch = true) →
      get_safe_name cp name = name) ∧
    get_safe_name cp "" = "" ∧
    get_safe_name cp "Get@Proc!" = "Get_Proc_" := by
  refine ⟨?_, ?_, ?_, rfl, rfl⟩
  · intro name
    unfold get_safe_name sanitize_reference
    rw [get_safe_name_loop_eq_map]
  · intro name
    unfold get_safe_name
    rw [get_safe_name_loop_eq_map]
    show (List.map _ name.data).length = name.data.length
    exact List.length_map _ _
  · intro name h
    unfold get_safe_name
    rw [get_safe_name_loop_eq_map]
    apply String.ext
    show List.map _ name.data = name.data
    conv_rhs => rw [← List.map_id name.data]
    apply List.map_congr_left
    intro ch hch
    simp [h ch hch]

/-- Witness for C5: `Init42` consists of alphanumeric characters only and is
returned unchanged. -/
theorem get_safe_name_refines_reference_witness :
    (∀ ch ∈ "Init42".data, IsCharAlphaNumericA ascii_code_page ch = true) ∧
    get_safe_name ascii_code_page "Init42" = "Init42" :=
  ⟨by decide, (get_safe_name_refines_reference ascii_code_page).2.2.1 "Init42" (by decide)⟩

/-! ## The export enumeration -/

theorem DetourEnumerateExports_enum_proc (cp : CodePage) (directory : List ExportEntry) :
    ∀ context : List export_symbol,
    DetourEnumerateExports (enum_proc cp) directory context =
      context ++ directory.map (fun e =>
        match e.pszName with
        | some pszName => ⟨e.nOrdinal, pszName, get_safe_name cp pszName, true⟩
        | none => ⟨e.nOrdinal, "Ordinal" ++ to_string e.nOrdinal,
            "Ordinal" ++ to_string e.nOrdinal, false⟩) := by
  induction directory with
  | nil => intro context; simp [DetourEnumerateExports]
  | cons e rest ih =>
    intro context
    rcases e with ⟨n, _ | name⟩
    · simp [DetourEnumerateExports, enum_proc, ih]
    · simp [DetourEnumerateExports, enum_proc, ih]

theorem enumerate_exports_shape (cp : CodePage) (directory : List ExportEntry) :
    enumerate_exports cp directory = directory.map (fun e =>
      match e.pszName with
      | some pszName => ⟨e.nOrdinal, pszName, get_safe_name cp pszName, true⟩
      | none => ⟨e.nOrdinal, "Ordinal" ++ to_string e.nOrdinal,
          "Ordinal" ++ to_string e.nOrdinal, false⟩) := by
  unfold enumerate_exports
  rw [DetourEnumerateExports_enum_proc]
  simp

/-- C9 (as amended): `enumerate_exports` turns the entries into symbols one by
one and in order; an entry without a name yields a symbol with
`has_name = false` whose `name` and `safe_name` are both `Ordinal` followed by
the decimal ordinal; and two nameless symbols of the result with different
ordinals have different identifiers. -/
theorem enumerate_exports_nameless_identifier (cp : CodePage) (directory : List ExportEntry) :
    enumerate_exports cp directory = directory.map (fun e =>
      match e.pszName with
      | some pszName => ⟨e.nOrdinal, pszName, get_safe_name cp pszName, true⟩
      | none => ⟨e.nOrdinal, "Ordinal" ++ to_string e.nOrdinal,
          "Ordinal" ++ to_string e.nOrdinal, false⟩) ∧
    (∀ n, decimal_value (to_string n) = n) ∧
    (∀ s ∈ enumerate_exports cp directory, s.has_name = false →
      s.name = "Ordinal" ++ to_string s.ordinal ∧
      s.safe_name = "Ordinal" ++ to_string s.ordinal) ∧
    (∀ s ∈ enumerate_exports cp directory, ∀ t ∈ enumerate_exports cp directory,
      s.has_name = false → t.has_name = false → s.ordinal ≠ t.ordinal →
      s.safe_name ≠ t.safe_name) := by
  have hmap := DetourEnumerateExports_enum_proc cp directory []
  have hnameless : ∀ s ∈ enumerate_exports cp directory, s.has_name = false →
      s.name = "Ordinal" ++ to_string s.ordinal ∧
      s.safe_name = "Ordinal" ++ to_string s.ordinal := by
    intro s hs hn
    unfold enumerate_exports at hs
    rw [hmap] at hs
    simp only [List.nil_append, List.mem_map] at hs
    obtain ⟨e, _, rfl⟩ := hs
    rcases e with ⟨n, _ | name⟩
    · exact ⟨rfl, rfl⟩
    · simp at hn
  refine ⟨by unfold enumerate_exports; rw [hmap]; simp, decimal_value_to_string, hnameless, ?_⟩
  intro s hs t ht hsn htn hne heq
  rw [(hnameless s hs hsn).2, (hnameless t ht htn).2] at heq
  exact hne (ordinal_name_injective _ _ heq)

/-- Witness for C9: the nameless exports 5 and 7 receive different identifiers. -/
theorem enumerate_exports_nameless_identifier_witness :
    (⟨5, "Ordinal5", "Ordinal5", false⟩ : export_symbol).safe_name
      ≠ (⟨7, "Ordinal7", "Ordinal7", false⟩ : export_symbol).safe_name :=
  (enumerate_exports_nameless_identifier ascii_code_page [⟨5, none⟩, ⟨7, none⟩]).2.2.2
    ⟨5, "Ordinal5", "Ordinal5", false⟩ (by decide) ⟨7, "Ordinal7", "Ordinal7", false⟩ (by decide)
    rfl rfl (by decide)

/-- Counterexample for C9: the nameless export 5 and the export named
`Ordinal5` with ordinal 3 have different ordinals and the same identifier. -/
theorem nameless_identifier_collides :
    enumerate_exports ascii_code_page [⟨5, none⟩, ⟨3, some "Ordinal5"⟩]
      = [⟨5, "Ordinal5", "Ordinal5", false⟩, ⟨3, "Ordinal5", "Ordinal5", true⟩] ∧
    ¬ (∀ s ∈ enumerate_exports ascii_code_page [⟨5, none⟩, ⟨3, some "Ordinal5"⟩],
        ∀ t ∈ enumerate_exports ascii_code_page [⟨5, none⟩, ⟨3, some "Ordinal5"⟩],
        s.has_name = false → s.ordinal ≠ t.ordinal → s.safe_name ≠ t.safe_name) := by
  decide

/-! ## The export-directive artifact -/

/-- C4 (as amended): the text written by `generate_module_definition` is the
two header lines followed by exactly one directive line per symbol, in list
order; the line of a symbol is a tab, the name, `=`, the forwarder symbol, a
space, `@` and the ordinal in decimal, followed by ` NONAME` exactly when
`has_name` is false, and a newline.  A nameless symbol with ordinal 7 gives a
line ending in `@7 NONAME`; the symbol `Foo` with ordinal 3 gives the line
`<tab>Foo=lib_b_Foo @3` without marker. -/
theorem module_definition_directive_lines (dllName : String) (exports : List export_symbol) :
    module_definition_text dllName exports =
      "LIBRARY " ++ dllName ++ "\n" ++ "EXPORTS\n" ++
        String.join (exports.map (fun s =>
          "\t" ++ s.name ++ "=" ++ forwarder_symbol dllName s ++ " @" ++ to_string s.ordinal
            ++ (if s.has_name then "" else " NONAME") ++ "\n")) ∧
    (∀ s : export_symbol, decimal_value (to_string s.ordinal) = s.ordinal) ∧
    module_definition_text "b" [⟨7, "Ordinal7", "Ordinal7", false⟩]
      = "LIBRARY b\nEXPORTS\n" ++ "\tOrdinal7=lib_b_Ordinal7 @7 NONAME" ++ "\n" ∧
    module_definition_text "b" [⟨3, "Foo", "Foo", true⟩]
      = "LIBRARY b\nEXPORTS\n" ++ "\tFoo=lib_b_Foo @3" ++ "\n" :=
  ⟨module_definition_text_eq dllName exports, fun s => decimal_value_to_string s.ordinal,
    by decide, by decide⟩

/-- Counterexample for C4: for the symbol `Foo` with ordinal 3 no choice of
forwarder makes the directive line read `Foo=<forwarder>@3`; the line written
is `<tab>Foo=lib_b_Foo @3`. -/
theorem directive_line_not_of_literal_form :
    ¬ ∃ forwarder : String,
      module_definition_text "b" [⟨3, "Foo", "Foo", true⟩]
        = "LIBRARY b\nEXPORTS\n" ++ ("Foo=" ++ forwarder ++ "@3") ++ "\n" := by
  rintro ⟨forwarder, h⟩
  have e : module_definition_text "b" [⟨3, "Foo", "Foo", true⟩]
      = "LIBRARY b\nEXPORTS\n" ++ "\tFoo=lib_b_Foo @3\n" := by decide
  rw [e] at h
  have h2 := congrArg String.data h
  simp [String.data_append] at h2

/-! ## The forwarding-implementation artifact -/

/-- C2 (evaluation at the failing input): for the export `?Run@@YAXXZ` the
load routine passes the sanitized identifier `_Run__YAXXZ` to `GetProcAddress`,
which is not the name the library exports. -/
theorem load_routine_resolves_by_safe_name (cp : CodePage) :
    enumerate_exports cp [⟨1, some "?Run@@YAXXZ"⟩]
      = [⟨1, "?Run@@YAXXZ", "_Run__YAXXZ", true⟩] ∧
    emit_load_routine "b" (enumerate_exports cp [⟨1, some "?Run@@YAXXZ"⟩]) ""
      = "\nbool load_library_b() \x7b\n"
        ++ "\tb.dll = uif::injector::instance().load_real_library(\"b.dll\");\n"
        ++ "\tb._Run__YAXXZ = GetProcAddress(b.dll, \"_Run__YAXXZ\");\n"
        ++ "\treturn true;\n"
        ++ "\x7d\n\n" ∧
    load_statement ⟨1, "?Run@@YAXXZ", "_Run__YAXXZ", true⟩
      = .resolve_by_name "_Run__YAXXZ" "_Run__YAXXZ" ∧
    "_Run__YAXXZ" ≠ "?Run@@YAXXZ" := by
  have e : enumerate_exports cp [⟨1, some "?Run@@YAXXZ"⟩]
      = [⟨1, "?Run@@YAXXZ", "_Run__YAXXZ", true⟩] := by
    rw [enumerate_exports_shape]
    rfl
  refine ⟨e, ?_, rfl, by decide⟩
  rw [e]
  rfl

/-- C3 (as amended): the unload routine is the same three statements for every
symbol list: it releases the real-library handle, sets the handle to null and
returns true.  Run on any proxy state it passes the handle to `FreeLibrary`,
leaves the handle null, and leaves every forwarding-table slot as it was. -/
theorem unload_routine_clears_handle_only (dllName : String) (host : Host) (b : Binding) :
    emit_unload_routine dllName ""
      = routine_text "unload_library_" dllName
          [.free_library, .clear_handle, .return_value true] ∧
    (run_program host b unload_program).dll = 0 ∧
    (run_program host b unload_program).released = b.released ++ [b.dll] ∧
    (run_program host b unload_program).slots = b.slots := by
  refine ⟨?_, rfl, rfl, rfl⟩
  rw [emit_unload_routine_eq]
  apply String.ext
  simp [String.data_append, unload_program]

/-- Counterexample for C3: for the symbol list `Init`, loading and then
unloading leaves the slot `Init` at the address the load stored in it. -/
theorem unload_leaves_slot_populated :
    emit_load_routine "b" [⟨1, "Init", "Init", true⟩] ""
      = "\n" ++ routine_text "load_library_" "b" (load_program "b" [⟨1, "Init", "Init", true⟩]) ∧
    emit_unload_routine "b" "" = routine_text "unload_library_" "b" unload_program ∧
    (run_program ⟨fun _ => 7, fun _ _ => 4096, fun _ _ => 4096⟩
      (run_program ⟨fun _ => 7, fun _ _ => 4096, fun _ _ => 4096⟩ ⟨0, fun _ => 0, []⟩
        (load_program "b" [⟨1, "Init", "Init", true⟩]))
      unload_program).slots "Init" = 4096 ∧
    (run_program ⟨fun _ => 7, fun _ _ => 4096, fun _ _ => 4096⟩
      (run_program ⟨fun _ => 7, fun _ _ => 4096, fun _ _ => 4096⟩ ⟨0, fun _ => 0, []⟩
        (load_program "b" [⟨1, "Init", "Init", true⟩]))
      unload_program).slots "Init" ≠ 0 := by
  refine ⟨?_, ?_, by decide, by decide⟩
  · rw [emit_load_routine_eq]; decide
  · rw [emit_unload_routine_eq]; decide

theorem cpp_file_text_eq (cp : CodePage) (dllName : String) (exports : List export_symbol) :
    cpp_file_text cp dllName exports =
      "#include \"pch.h\"\n\n" ++ "#ifdef UIF_LIB_" ++ CharUpperA cp dllName ++ "\n\n"
        ++ "#include \"injector.h\"\n\n"
        ++ "struct \x7b\n" ++ "\tHMODULE dll;\n"
        ++ String.join (exports.map (fun s => "\tFARPROC " ++ s.safe_name ++ ";\n"))
        ++ "\x7d " ++ dllName ++ ";\n\n"
        ++ String.join (exports.map (fun s =>
            "void " ++ forwarder_symbol dllName s ++ "() \x7b " ++ dllName ++ "." ++ s.safe_name
              ++ "(); \x7d\n"))
        ++ "\n" ++ routine_text "load_library_" dllName (load_program dllName exports)
        ++ routine_text "unload_library_" dllName unload_program
        ++ "#else\n\n"
        ++ routine_text "load_library_" dllName [.return_value false]
        ++ routine_text "unload_library_" dllName [.return_value false]
        ++ "#endif\n" := by
  unfold cpp_file_text
  simp only []
  rw [emit_disabled_branch_eq, emit_unload_routine_eq, emit_load_routine_eq,
    emit_trampolines_eq, emit_table_eq]
  unfold emit_prologue
  apply String.ext
  simp [String.data_append]

set_option maxRecDepth 20000 in
theorem sample_cpp_file_text (cp : CodePage) :
    cpp_file_text cp "sample"
        [⟨1, "Init", "Init", true⟩, ⟨2, "Run", "Run", true⟩, ⟨5, "Ordinal5", "Ordinal5", false⟩]
      = "#include \"pch.h\"\n\n"
        ++ "#ifdef UIF_LIB_SAMPLE\n\n"
        ++ "#include \"injector.h\"\n\n"
        ++ "struct \x7b\n"
        ++ "\tHMODULE dll;\n"
        ++ "\tFARPROC Init;\n"
        ++ "\tFARPROC Run;\n"
        ++ "\tFARPROC Ordinal5;\n"
        ++ "\x7d sample;\n\n"
        ++ "void lib_sample_Init() \x7b sample.Init(); \x7d\n"
        ++ "void lib_sample_Run() \x7b sample.Run(); \x7d\n"
        ++ "void lib_sample_Ordinal5() \x7b sample.Ordinal5(); \x7d\n"
        ++ "\nbool load_library_sample() \x7b\n"
        ++ "\tsample.dll = uif::injector::instance().load_real_library(\"sample.dll\");\n"
        ++ "\tsample.Init = GetProcAddress(sample.dll, \"Init\");\n"
        ++ "\tsample.Run = GetProcAddress(sample.dll, \"Run\");\n"
        ++ "\tsample.Ordinal5 = GetProcAddress(sample.dll, MAKEINTRESOURCEA(5));\n"
        ++ "\treturn true;\n"
        ++ "\x7d\n\n"
        ++ "bool unload_library_sample() \x7b\n"
        ++ "\tFreeLibrary(sample.dll);\n"
        ++ "\tsample.dll = nullptr;\n"
        ++ "\treturn true;\n"
        ++ "\x7d\n\n"
        ++ "#else\n\n"
        ++ "bool load_library_sample() \x7b\n"
        ++ "\treturn false;\n"
        ++ "\x7d\n\n"
        ++ "bool unload_library_sample() \x7b\n"
        ++ "\treturn false;\n"
        ++ "\x7d\n\n"
        ++ "#endif\n" := by
  have upper : CharUpperA cp "sample" = "SAMPLE" := rfl
  rw [cpp_file_text_eq, upper]
  decide

/-- C8: the implementation text is, in this order and with nothing else: the
two includes around the guard `#ifdef UIF_LIB_<BASE>`; the table with the handle
and one `FARPROC` slot per symbol; one trampoline per symbol; the load routine;
the unload routine; `#else`; a load and an unload routine that return false;
`#endif`.  The trampoline of a symbol is named by the forwarder symbol that the
directive line of the same symbol names, and its body is the single call
through the slot of that symbol.  The enabled branch defines
`load_library_<base>` and `unload_library_<base>` once each, and the interface
text declares exactly these two names.  For the exports `(1, Init)`,
`(2, Run)`, `(5, no name)` the whole text is spelled out: three slots, three
trampolines, one load and unload pair in the enabled branch. -/
theorem generated_artifacts_consistent (cp : CodePage) (dllName : String)
    (exports : List export_symbol) :
    cpp_file_text cp dllName exports =
      "#include \"pch.h\"\n\n" ++ "#ifdef UIF_LIB_" ++ CharUpperA cp dllName ++ "\n\n"
        ++ "#include \"injector.h\"\n\n"
        ++ "struct \x7b\n" ++ "\tHMODULE dll;\n"
        ++ String.join (exports.map (fun s => "\tFARPROC " ++ s.safe_name ++ ";\n"))
        ++ "\x7d " ++ dllName ++ ";\n\n"
        ++ String.join (exports.map (fun s =>
            "void " ++ forwarder_symbol dllName s ++ "() \x7b " ++ dllName ++ "." ++ s.safe_name
              ++ "(); \x7d\n"))
        ++ "\n" ++ routine_text "load_library_" dllName (load_program dllName exports)
        ++ routine_text "unload_library_" dllName unload_program
        ++ "#else\n\n"
        ++ routine_text "load_library_" dllName [.return_value false]
        ++ routine_text "unload_library_" dllName [.return_value false]
        ++ "#endif\n" ∧
    cpp_file_text cp dllName exports =
      emit_prologue (CharUpperA cp dllName) "" ++ emit_table dllName exports ""
        ++ emit_trampolines dllName exports "" ++ emit_load_routine dllName exports ""
        ++ emit_unload_routine dllName "" ++ emit_disabled_branch dllName "" ∧
    emit_prologue (CharUpperA cp dllName) "" =
      "#include \"pch.h\"\n\n" ++ "#ifdef UIF_LIB_" ++ CharUpperA cp dllName ++ "\n\n"
        ++ "#include \"injector.h\"\n\n" ∧
    emit_table dllName exports "" =
      "struct \x7b\n" ++ "\tHMODULE dll;\n"
        ++ String.join (exports.map (fun s => "\tFARPROC " ++ s.safe_name ++ ";\n"))
        ++ "\x7d " ++ dllName ++ ";\n\n" ∧
    (exports.map (fun s => "\tFARPROC " ++ s.safe_name ++ ";\n")).length = exports.length ∧
    emit_trampolines dllName exports "" =
      String.join (exports.map (fun s =>
        "void " ++ forwarder_symbol dllName s ++ "() \x7b " ++ dllName ++ "." ++ s.safe_name
          ++ "(); \x7d\n")) ∧
    (exports.map (fun s =>
        "void " ++ forwarder_symbol dllName s ++ "() \x7b " ++ dllName ++ "." ++ s.safe_name
          ++ "(); \x7d\n")).length = exports.length ∧
    module_definition_text dllName exports =
      "LIBRARY " ++ dllName ++ "\n" ++ "EXPORTS\n" ++
        String.join (exports.map (fun s =>
          "\t" ++ s.name ++ "=" ++ forwarder_symbol dllName s ++ " @" ++ to_string s.ordinal
            ++ (if s.has_name then "" else " NONAME") ++ "\n")) ∧
    (∀ s : export_symbol, forwarder_symbol dllName s = "lib_" ++ dllName ++ "_" ++ s.safe_name) ∧
    emit_load_routine dllName exports "" =
      "\n" ++ routine_text "load_library_" dllName (load_program dllName exports) ∧
    emit_unload_routine dllName "" = routine_text "unload_library_" dllName unload_program ∧
    emit_disabled_branch dllName "" =
      "#else\n\n" ++ routine_text "load_library_" dllName [.return_value false]
        ++ routine_text "unload_library_" dllName [.return_value false] ++ "#endif\n" ∧
    (∀ routine body, routine_text routine dllName body =
      "bool " ++ routine ++ dllName ++ "() \x7b\n"
        ++ String.join (body.map (Stmt.render dllName)) ++ "\x7d\n\n") ∧
    header_file_text dllName =
      "#pragma once\n\n" ++ "bool " ++ "load_library_" ++ dllName ++ "();\n"
        ++ "bool " ++ "unload_library_" ++ dllName ++ "();\n" ∧
    cpp_file_text cp "sample"
        (enumerate_exports cp [⟨1, some "Init"⟩, ⟨2, some "Run"⟩, ⟨5, none⟩])
      = "#include \"pch.h\"\n\n"
        ++ "#ifdef UIF_LIB_SAMPLE\n\n"
        ++ "#include \"injector.h\"\n\n"
        ++ "struct \x7b\n"
        ++ "\tHMODULE dll;\n"
        ++ "\tFARPROC Init;\n"
        ++ "\tFARPROC Run;\n"
        ++ "\tFARPROC Ordinal5;\n"
        ++ "\x7d sample;\n\n"
        ++ "void lib_sample_Init() \x7b sample.Init(); \x7d\n"
        ++ "void lib_sample_Run() \x7b sample.Run(); \x7d\n"
        ++ "void lib_sample_Ordinal5() \x7b sample.Ordinal5(); \x7d\n"
        ++ "\nbool load_library_sample() \x7b\n"
        ++ "\tsample.dll = uif::injector::instance().load_real_library(\"sample.dll\");\n"
        ++ "\tsample.Init = GetProcAddress(sample.dll, \"Init\");\n"
        ++ "\tsample.Run = GetProcAddress(sample.dll, \"Run\");\n"
        ++ "\tsample.Ordinal5 = GetProcAddress(sample.dll, MAKEINTRESOURCEA(5));\n"
        ++ "\treturn true;\n"
        ++ "\x7d\n\n"
        ++ "bool unload_library_sample() \x7b\n"
        ++ "\tFreeLibrary(sample.dll);\n"
        ++ "\tsample.dll = nullptr;\n"
        ++ "\treturn true;\n"
        ++ "\x7d\n\n"
        ++ "#else\n\n"
        ++ "bool load_library_sample() \x7b\n"
        ++ "\treturn false;\n"
        ++ "\x7d\n\n"
        ++ "bool unload_library_sample() \x7b\n"
        ++ "\treturn false;\n"
        ++ "\x7d\n\n"
        ++ "#endif\n" ∧
    module_definition_text "sample"
        (enumerate_exports cp [⟨1, some "Init"⟩, ⟨2, some "Run"⟩, ⟨5, none⟩])
      = "LIBRARY sample\n" ++ "EXPORTS\n"
        ++ "\tInit=lib_sample_Init @1\n"
        ++ "\tRun=lib_sample_Run @2\n"
        ++ "\tOrdinal5=lib_sample_Ordinal5 @5 NONAME\n" ∧
    header_file_text "sample"
      = "#pragma once\n\n" ++ "bool load_library_sample();\n"
        ++ "bool unload_library_sample();\n" := by
  have sample : enumerate_exports cp [⟨1, some "Init"⟩, ⟨2, some "Run"⟩, ⟨5, none⟩]
      = [⟨1, "Init", "Init", true⟩, ⟨2, "Run", "Run", true⟩,
          ⟨5, "Ordinal5", "Ordinal5", false⟩] := by
    rw [(enumerate_exports_shape cp _)]
    rfl
  refine ⟨cpp_file_text_eq cp dllName exports, ?_, ?_, ?_, List.length_map _ _, ?_,
    List.length_map _ _, module_definition_text_eq dllName exports, fun _ => rfl,
    ?_, ?_, ?_, fun _ _ => rfl, ?_, ?_, ?_, ?_⟩
  · unfold cpp_file_text
    simp only []
    rw [emit_disabled_branch_eq, emit_unload_routine_eq, emit_load_routine_eq,
      emit_trampolines_eq, emit_table_eq dllName exports (emit_prologue _ _),
      emit_disabled_branch_eq dllName "", emit_unload_routine_eq dllName "",
      emit_load_routine_eq dllName exports "", emit_trampolines_eq dllName exports "",
      emit_table_eq dllName exports ""]
    apply String.ext
    simp [String.data_append]
  · unfold emit_prologue
    apply String.ext
    simp [String.data_append]
  · rw [emit_table_eq]
    apply String.ext
    simp [String.data_append]
  · rw [emit_trampolines_eq]
    apply String.ext
    simp [String.data_append]
  · rw [emit_load_routine_eq]
    apply String.ext
    simp [String.data_append]
  · rw [emit_unload_routine_eq]
    apply String.ext
    simp [String.data_append]
  · rw [emit_disabled_branch_eq]
    apply String.ext
    simp [String.data_append]
  · unfold header_file_text
    apply String.ext
    simp [String.data_append]
  · rw [sample]
    exact sample_cpp_file_text cp
  · rw [sample]
    rfl
  · rfl

/-! ## The real-library resolver -/

theorem length_eq_zero_iff (s : String) : s.length = 0 ↔ s = "" := by
  constructor
  · intro h
    apply String.ext
    exact List.length_eq_zero.mp h
  · rintro rfl
    rfl

theorem c_str_of_no_nul (s : String) (h : ∀ ch ∈ s.data, ch.toNat ≠ 0) : c_str s = s := by
  unfold c_str
  apply String.ext
  show List.takeWhile _ s.data = s.data
  rw [List.takeWhile_eq_self_iff]
  intro ch hch
  simpa using h ch hch

theorem c_str_no_nul (s : String) : ∀ ch ∈ (c_str s).data, ch.toNat ≠ 0 := by
  intro ch hch
  have := List.mem_takeWhile_imp hch
  simpa using this

theorem c_str_append (a b : String) (h : ∀ ch ∈ a.data, ch.toNat ≠ 0) :
    c_str (a ++ b) = a ++ c_str b := by
  unfold c_str
  apply String.ext
  simp only [String.data_append]
  rw [List.takeWhile_append_of_pos]
  intro ch hch
  simpa using h ch hch

theorem load_attempts_eq (os : Platform) (config : Json) (dllName : String) :
    (load_real_library os config dllName).load_attempts
      = [c_str (real_library_path os config dllName)] := by
  unfold load_real_library
  simp only []
  split <;> rfl

theorem real_library_path_override (os : Platform) (config : Json) (dllName P : String)
    (h : Json.resolve real_library_location config = some (.string P)) (hP : P ≠ "") :
    real_library_path os config dllName = P := by
  unfold real_library_path Json.contains
  simp only [h, Option.isSome_some, if_true]
  rw [if_neg]
  rwa [length_eq_zero_iff]

theorem real_library_path_default (os : Platform) (config : Json) (dllName : String)
    (h : ∀ P, P ≠ "" → Json.resolve real_library_location config ≠ some (.string P)) :
    real_library_path os config dllName = c_str os.system_directory ++ "\\" ++ dllName := by
  unfold real_library_path Json.contains
  simp only []
  have key : (if (Json.resolve real_library_location config).isSome = true then
      match Json.resolve real_library_location config with
      | some (.string value) => value
      | _ => "" else "") = "" := by
    split
    · split
      · rename_i value hv
        by_contra hne
        exact h value hne hv
      · rfl
    · rfl
  rw [key]
  rfl

theorem c_str_default_path (os : Platform) (dllName : String) :
    c_str (c_str os.system_directory ++ "\\" ++ dllName)
      = c_str os.system_directory ++ "\\" ++ c_str dllName := by
  rw [String.append_assoc, c_str_append _ _ (c_str_no_nul _), c_str_append _ _ (by decide),
    ← String.append_assoc]

/-- C1 (as amended): `LoadLibraryA` is called once, with the C string behind
the path.  When the configuration holds a non-empty string `P` at
`injector.real_library_location`, that is `P` up to its first NUL character,
hence `P` itself, verbatim, when `P` holds no NUL.  When it holds no string
there, or the empty string, it is the system directory, a single backslash and
the base name (up to its first NUL). -/
theorem resolver_precedence (os : Platform) (config : Json) (dllName : String) :
    (∀ P, Json.resolve real_library_location config = some (.string P) → P ≠ "" →
      (load_real_library os config dllName).load_attempts = [c_str P]) ∧
    (∀ P, Json.resolve real_library_location config = some (.string P) → P ≠ "" →
      (∀ ch ∈ P.data, ch.toNat ≠ 0) →
      (load_real_library os config dllName).load_attempts = [P]) ∧
    ((∀ P, Json.resolve real_library_location config ≠ some (.string P)) →
      (load_real_library os config dllName).load_attempts
        = [c_str os.system_directory ++ "\\" ++ c_str dllName]) ∧
    (Json.resolve real_library_location config = some (.string "") →
      (load_real_library os config dllName).load_attempts
        = [c_str os.system_directory ++ "\\" ++ c_str dllName]) ∧
    (∀ s : String, (∀ ch ∈ s.data, ch.toNat ≠ 0) → c_str s = s) := by
  refine ⟨?_, ?_, ?_, ?_, c_str_of_no_nul⟩
  · intro P h hP
    rw [load_attempts_eq, real_library_path_override os config dllName P h hP]
  · intro P h hP hnul
    rw [load_attempts_eq, real_library_path_override os config dllName P h hP,
      c_str_of_no_nul P hnul]
  · intro h
    rw [load_attempts_eq, real_library_path_default os config dllName (fun P _ => h P),
      c_str_default_path]
  · intro h
    rw [load_attempts_eq, real_library_path_default os config dllName, c_str_default_path]
    intro P hP hres
    rw [h] at hres
    injection hres with hres
    injection hres with hres
    exact hP hres.symm

/-- Witness for C1: with the override `C:\Real\sample.dll`, which is not empty
and holds no NUL, the resolver tries exactly that path. -/
theorem resolver_precedence_witness :
    (load_real_library ⟨"C:\\Windows\\System32", fun _ => 1⟩
      (.object [("injector", .object [("real_library_location", .string "C:\\Real\\sample.dll")])])
      "sample.dll").load_attempts = ["C:\\Real\\sample.dll"] :=
  (resolver_precedence ⟨"C:\\Windows\\System32", fun _ => 1⟩
    (.object [("injector", .object [("real_library_location", .string "C:\\Real\\sample.dll")])])
    "sample.dll").2.1 "C:\\Real\\sample.dll" rfl (by decide) (by decide)

/-- Counterexample for C1: the configuration holds the string value `""` at
`injector.real_library_location`, and the resolver tries the path in the
system directory instead of that value; and for the string value
`C:\Real`, NUL, `sample.dll` the resolver tries `C:\Real`, not the value. -/
theorem empty_override_falls_back_to_system_directory :
    Json.resolve real_library_location
      (.object [("injector", .object [("real_library_location", .string "")])])
      = some (.string "") ∧
    (load_real_library ⟨"C:\\Windows\\System32", fun _ => 1⟩
      (.object [("injector", .object [("real_library_location", .string "")])])
      "version.dll").load_attempts = ["C:\\Windows\\System32\\version.dll"] ∧
    (load_real_library ⟨"C:\\Windows\\System32", fun _ => 1⟩
      (.object [("injector", .object [("real_library_location", .string "")])])
      "version.dll").load_attempts ≠ [""] ∧
    Json.resolve real_library_location
      (.object [("injector", .object [("real_library_location",
        .string "C:\\Real\x00sample.dll")])])
      = some (.string "C:\\Real\x00sample.dll") ∧
    (load_real_library ⟨"C:\\Windows\\System32", fun _ => 1⟩
      (.object [("injector", .object [("real_library_location",
        .string "C:\\Real\x00sample.dll")])])
      "version.dll").load_attempts = ["C:\\Real"] ∧
    (load_real_library ⟨"C:\\Windows\\System32", fun _ => 1⟩
      (.object [("injector", .object [("real_library_location",
        .string "C:\\Real\x00sample.dll")])])
      "version.dll").load_attempts ≠ ["C:\\Real\x00sample.dll"] :=
  ⟨rfl, by decide, by decide, rfl, by decide, by decide⟩

/-- C7: the resolver calls `LoadLibraryA` once, with the C string behind the
resolved path.  If that load fails, the call does not return a handle: it ends
in `ExitProcess(1)`, a non-zero status, after one message box whose text is a
fixed preamble followed by exactly the path that was passed to `LoadLibraryA`.
If the load succeeds, the call returns the loaded handle, shows no message box
and does not exit. -/
theorem load_failure_is_fatal (os : Platform) (config : Json) (dllName : String) :
    (load_real_library os config dllName).load_attempts
      = [c_str (real_library_path os config dllName)] ∧
    (os.LoadLibraryA (c_str (real_library_path os config dllName)) = 0 →
      (load_real_library os config dllName).outcome = .exit_process 1 ∧
      (1 : Nat) ≠ 0 ∧
      (∀ handle, (load_real_library os config dllName).outcome ≠ .returned handle) ∧
      (load_real_library os config dllName).message_boxes =
        [("Unable to locate original library.\nPlease check the configuration file.\n\nPath: "
          ++ c_str (real_library_path os config dllName), "Universal Injector")]) ∧
    (os.LoadLibraryA (c_str (real_library_path os config dllName)) ≠ 0 →
      (load_real_library os config dllName).outcome
        = .returned (os.LoadLibraryA (c_str (real_library_path os config dllName))) ∧
      (load_real_library os config dllName).message_boxes = []) := by
  refine ⟨load_attempts_eq os config dllName, ?_, ?_⟩
  · intro h
    unfold load_real_library
    simp only [h, if_true]
    refine ⟨trivial, by decide, ?_, ?_⟩
    · intro handle hc
      cases hc
    · rw [c_str_append _ _ (by decide)]
  · intro h
    unfold load_real_library
    simp only [h, if_false]
    exact ⟨trivial, trivial⟩

/-- Witness for C7: the override `C:\Real\sample.dll` cannot be loaded; the
call ends in `ExitProcess(1)` and the message box names that path. -/
theorem load_failure_is_fatal_witness :
    (load_real_library ⟨"C:\\Windows\\System32", fun _ => 0⟩
      (.object [("injector", .object [("real_library_location", .string "C:\\Real\\sample.dll")])])
      "sample.dll").load_attempts = ["C:\\Real\\sample.dll"] ∧
    (load_real_library ⟨"C:\\Windows\\System32", fun _ => 0⟩
      (.object [("injector", .object [("real_library_location", .string "C:\\Real\\sample.dll")])])
      "sample.dll").outcome = .exit_process 1 ∧
    (load_real_library ⟨"C:\\Windows\\System32", fun _ => 0⟩
      (.object [("injector", .object [("real_library_location", .string "C:\\Real\\sample.dll")])])
      "sample.dll").message_boxes =
        [("Unable to locate original library.\nPlease check the configuration file.\n\nPath: "
          ++ c_str "C:\\Real\\sample.dll", "Universal Injector")] :=
  have h := (load_failure_is_fatal ⟨"C:\\Windows\\System32", fun _ => 0⟩
    (.object [("injector", .object [("real_library_location", .string "C:\\Real\\sample.dll")])])
    "sample.dll").2.1 rfl
  ⟨by decide, h.1, h.2.2.2⟩

/-! ## The base name -/

theorem last_index_cons (p : Char → Bool) (x : Char) (l : List Char) :
    last_index p (x :: l) =
      match last_index p l with
      | some i => some (i + 1)
      | none => if p x then some 0 else none := rfl

theorem last_index_append (p : Char → Bool) (a b : List Char) :
    last_index p (a ++ b) =
      match last_index p b with
      | some k => some (a.length + k)
      | none => last_index p a := by
  induction a with
  | nil => cases h : last_index p b <;> simp [last_index, h]
  | cons x a ih =>
    rw [List.cons_append, last_index_cons, ih]
    cases h : last_index p b with
    | none => simp only []; rw [last_index_cons]
    | some k => simp only [List.length_cons, Option.some.injEq]; omega

theorem last_index_lt (p : Char → Bool) (l : List Char) (i : Nat)
    (h : last_index p l = some i) : i < l.length := by
  induction l generalizing i with
  | nil => simp [last_index] at h
  | cons x l ih =>
    simp only [last_index] at h
    cases hl : last_index p l with
    | some k =>
      rw [hl] at h
      simp only [Option.some.injEq] at h
      have := ih k hl
      simp only [List.length_cons]
      omega
    | none =>
      rw [hl] at h
      by_cases hp : p x = true
      · simp only [hp, if_true, Option.some.injEq] at h
        simp only [List.length_cons]
        omega
      · simp [hp] at h

theorem last_index_concat (p : Char → Bool) (l : List Char) (c : Char) :
    last_index p (l ++ [c]) = if p c then some l.length else last_index p l := by
  rw [last_index_append]
  by_cases hp : p c = true
  · simp [last_index, hp]
  · simp [last_index, hp]

theorem last_index_none_iff (p : Char → Bool) (l : List Char) :
    last_index p l = none ↔ ∀ c ∈ l, p c = false := by
  induction l with
  | nil => simp [last_index]
  | cons x l ih =>
    simp only [last_index, List.mem_cons, forall_eq_or_imp]
    cases hl : last_index p l with
    | some k =>
      simp only [false_iff, not_and, reduceCtorEq]
      intro _ hall
      rw [ih.mpr hall] at hl
      cases hl
    | none =>
      have := ih.mp hl
      by_cases hp : p x = true
      · simp [hp]
      · simpa [hp] using this

/-- The position right after the last character satisfying `p`. -/
theorem drop_after_last (p : Char → Bool) (l : List Char) :
    (match last_index p l with | some i => i + 1 | none => 0) ≤ l.length ∧
    l.drop (match last_index p l with | some i => i + 1 | none => 0)
      = (l.reverse.takeWhile (fun ch => !p ch)).reverse := by
  induction l using List.reverseRecOn with
  | nil => simp [last_index]
  | append_singleton l c ih =>
    rw [last_index_concat, List.reverse_concat]
    by_cases hp : p c = true
    · simp [hp]
    · simp only [hp, if_false, Bool.false_eq_true]
      obtain ⟨hle, hdrop⟩ := ih
      refine ⟨by simp only [List.length_append, List.length_singleton]; omega, ?_⟩
      rw [List.drop_append_of_le_length hle, hdrop]
      simp [hp]

theorem take_before_last (p : Char → Bool) (l : List Char) (k : Nat)
    (h : last_index p l = some k) :
    ((l.reverse.dropWhile (fun ch => !p ch)).drop 1).reverse = l.take k := by
  induction l using List.reverseRecOn generalizing k with
  | nil => simp [last_index] at h
  | append_singleton l c ih =>
    rw [last_index_concat] at h
    rw [List.reverse_concat]
    by_cases hp : p c = true
    · simp only [hp, if_true, Option.some.injEq] at h
      subst h
      simp [hp]
    · simp only [hp, if_false, Bool.false_eq_true] at h
      have hk := last_index_lt p l k h
      rw [List.take_append_of_le_length (by omega), ← ih k h]
      simp [hp]

theorem file_name_component_eq (l : List Char) :
    file_name_component l
      = l.drop (match last_index (fun ch => ['\\', '/'].contains ch) l with
          | some i => i + 1 | none => 0) := by
  rw [(drop_after_last _ l).2]
  unfold file_name_component
  congr 2
  funext ch
  simp

theorem strip_extension_eq (f : List Char) :
    strip_extension f
      = match last_index (fun ch => ['.'].contains ch) f with
        | some k => f.take k
        | none => f := by
  unfold strip_extension
  cases h : last_index (fun ch => ['.'].contains ch) f with
  | none =>
    have := (last_index_none_iff _ f).mp h
    have hn : '.' ∉ f := by
      intro hmem
      have := this '.' hmem
      simp at this
    simp [hn]
  | some k =>
    have hmem : '.' ∈ f := by
      by_contra hn
      have : last_index (fun ch => ['.'].contains ch) f = none := by
        rw [last_index_none_iff]
        intro c hc
        have : c ≠ '.' := fun e => hn (e ▸ hc)
        simp [this]
      rw [this] at h
      cases h
    simp only [hmem, if_true]
    rw [← take_before_last _ f k h]
    congr 3
    funext ch
    cases hd : decide (ch = '.') <;> simp_all

theorem substr_window (M : Nat) (l : List Char) (h : l.length < M) :
    ((match last_index (fun ch => ['\\', '/'].contains ch) l with
        | some i => i | none => M - 1) + 1) % M ≤ l.length ∧
    (l.drop (((match last_index (fun ch => ['\\', '/'].contains ch) l with
        | some i => i | none => M - 1) + 1) % M)).take
      (min (((if (match last_index (fun ch => ['.'].contains ch) l with
                | some i => i | none => M - 1) = M - 1 then l.length
              else (match last_index (fun ch => ['.'].contains ch) l with
                | some i => i | none => M - 1)) + M
            - ((match last_index (fun ch => ['\\', '/'].contains ch) l with
                | some i => i | none => M - 1) + 1) % M) % M)
        (l.length - ((match last_index (fun ch => ['\\', '/'].contains ch) l with
            | some i => i | none => M - 1) + 1) % M))
      = strip_extension (file_name_component l) := by
  have hstart : ((match last_index (fun ch => ['\\', '/'].contains ch) l with
        | some i => i | none => M - 1) + 1) % M
      = (match last_index (fun ch => ['\\', '/'].contains ch) l with
        | some i => i + 1 | none => 0) := by
    cases hs : last_index (fun ch => ['\\', '/'].contains ch) l with
    | none =>
      simp only []
      have : M - 1 + 1 = M := by omega
      rw [this, Nat.mod_self]
    | some i =>
      simp only []
      have := last_index_lt _ l i hs
      exact Nat.mod_eq_of_lt (by omega)
  rw [hstart, file_name_component_eq, strip_extension_eq]
  obtain ⟨hle, -⟩ := drop_after_last (fun ch => ['\\', '/'].contains ch) l
  generalize (match last_index (fun ch => ['\\', '/'].contains ch) l with
        | some i => i + 1 | none => 0) = s at hle ⊢
  refine ⟨hle, ?_⟩
  have hsplit : last_index (fun ch => ['.'].contains ch) l
      = match last_index (fun ch => ['.'].contains ch) (l.drop s) with
        | some k => some (s + k)
        | none => last_index (fun ch => ['.'].contains ch) (l.take s) := by
    conv_lhs => rw [← List.take_append_drop s l]
    rw [last_index_append]
    simp [List.length_take, Nat.min_eq_left hle]
  have hlen : (l.drop s).length = l.length - s := List.length_drop s l
  cases hf : last_index (fun ch => ['.'].contains ch) (l.drop s) with
  | some k =>
    rw [hf] at hsplit
    simp only [hsplit]
    have hk := last_index_lt _ _ k hf
    rw [hlen] at hk
    have h1 : ¬ (s + k = M - 1) := by omega
    rw [if_neg h1]
    have h2 : (s + k + M - s) % M = k := by
      have : s + k + M - s = k + M := by omega
      rw [this, Nat.add_mod_right]
      exact Nat.mod_eq_of_lt (by omega)
    rw [h2, Nat.min_eq_left (by omega)]
  | none =>
    rw [hf] at hsplit
    simp only []
    have hfull : ∀ c, l.length - s ≤ c → (l.drop s).take (min c (l.length - s)) = l.drop s := by
      intro c hc
      rw [Nat.min_eq_right hc, ← hlen]
      exact List.take_length _
    cases ht : last_index (fun ch => ['.'].contains ch) (l.take s) with
    | none =>
      rw [ht] at hsplit
      simp only [hsplit, if_true]
      apply hfull
      have : l.length + M - s = l.length - s + M := by omega
      rw [this, Nat.add_mod_right, Nat.mod_eq_of_lt (by omega)]
    | some i =>
      rw [ht] at hsplit
      have hi := last_index_lt _ _ i ht
      rw [List.length_take, Nat.min_eq_left hle] at hi
      simp only [hsplit]
      have h1 : ¬ (i = M - 1) := by omega
      rw [if_neg h1]
      apply hfull
      rw [Nat.mod_eq_of_lt (by omega)]
      omega

theorem dll_name_of_path_eq (bits : Nat) (cp : CodePage) (dllPath : String)
    (h : dllPath.length < 2 ^ bits) :
    dll_name_of_path bits cp dllPath = some (base_name_reference cp dllPath) := by
  obtain ⟨hle, hwin⟩ := substr_window (2 ^ bits) dllPath.data h
  unfold dll_name_of_path base_name_reference substr find_last_of npos
  simp only []
  rw [if_neg (by
    show ¬ _ > dllPath.data.length
    omega)]
  show some _ = some _
  congr 2
  apply String.ext
  exact hwin

theorem generate_all_eq (cp : CodePage) (fs : FileSystem) (dllName : String)
    (exports : List export_symbol) :
    generate_all cp fs dllName exports =
      (fs.can_open (dllName ++ ".def") && fs.can_open (dllName ++ ".cpp")
          && fs.can_open (dllName ++ ".h"),
        if !fs.can_open (dllName ++ ".def") then fs
        else if !fs.can_open (dllName ++ ".cpp") then
          fs.write (dllName ++ ".def") (module_definition_text dllName exports)
        else if !fs.can_open (dllName ++ ".h") then
          (fs.write (dllName ++ ".def") (module_definition_text dllName exports)).write
            (dllName ++ ".cpp") (cpp_file_text cp dllName exports)
        else
          ((fs.write (dllName ++ ".def") (module_definition_text dllName exports)).write
            (dllName ++ ".cpp") (cpp_file_text cp dllName exports)).write
            (dllName ++ ".h") (header_file_text dllName)) := by
  unfold generate_all generate_module_definition generate_cpp_file generate_header_file
  cases h1 : fs.can_open (dllName ++ ".def") <;>
  cases h2 : fs.can_open (dllName ++ ".cpp") <;>
  cases h3 : fs.can_open (dllName ++ ".h") <;>
  simp [FileSystem.write, h1, h2, h3]

theorem append_left_cancel_ne (base a b : String) (h : a ≠ b) : base ++ a ≠ base ++ b := by
  intro e
  apply h
  apply String.ext
  have e2 := congrArg String.data e
  simp only [String.data_append] at e2
  exact List.append_cancel_left e2

/-- C10: for every library path that fits a `size_t`, the base name computed by
`generate_files` is `get_safe_name` of the file-name component of the path
(what follows the last `\` or `/`) with the part from its last `.` on removed;
a `.` in a directory component does not count.  The three generators all
receive this base name: when all three outputs can be opened, the run reports
success and leaves the three texts generated for this base name under
`<base>.def`, `<base>.cpp` and `<base>.h`. -/
theorem base_name_derivation (bits : Nat) (cp : CodePage) (dllPath : String)
    (h : dllPath.length < 2 ^ bits) :
    dll_name_of_path bits cp dllPath = some (base_name_reference cp dllPath) ∧
    (∀ fs exports, generate_files bits cp fs dllPath exports
      = some (generate_all cp fs (base_name_reference cp dllPath) exports)) ∧
    (∀ fs exports, (∀ path, fs.can_open path = true) →
      (generate_all cp fs (base_name_reference cp dllPath) exports).1 = true ∧
      (generate_all cp fs (base_name_reference cp dllPath) exports).2.contents
          (base_name_reference cp dllPath ++ ".def")
        = some (module_definition_text (base_name_reference cp dllPath) exports) ∧
      (generate_all cp fs (base_name_reference cp dllPath) exports).2.contents
          (base_name_reference cp dllPath ++ ".cpp")
        = some (cpp_file_text cp (base_name_reference cp dllPath) exports) ∧
      (generate_all cp fs (base_name_reference cp dllPath) exports).2.contents
          (base_name_reference cp dllPath ++ ".h")
        = some (header_file_text (base_name_reference cp dllPath))) := by
  have hname := dll_name_of_path_eq bits cp dllPath h
  refine ⟨hname, ?_, ?_⟩
  · intro fs exports
    unfold generate_files
    rw [hname]
    rfl
  · intro fs exports hopen
    rw [generate_all_eq]
    have d1 := append_left_cancel_ne (base_name_reference cp dllPath) ".def" ".cpp" (by decide)
    have d2 := append_left_cancel_ne (base_name_reference cp dllPath) ".def" ".h" (by decide)
    have d3 := append_left_cancel_ne (base_name_reference cp dllPath) ".cpp" ".h" (by decide)
    simp [hopen, FileSystem.write, d1, d2, d3]

/-- Witness for C10: the path `C:\dir.v2\my-lib.x.dll` has a `.` in a directory
component and two in the file name; its base name is `my_lib_x`. -/
theorem base_name_derivation_witness :
    "C:\\dir.v2\\my-lib.x.dll".length < 2 ^ 32 ∧
    dll_name_of_path 32 ascii_code_page "C:\\dir.v2\\my-lib.x.dll"
      = some (base_name_reference ascii_code_page "C:\\dir.v2\\my-lib.x.dll") ∧
    base_name_reference ascii_code_page "C:\\dir.v2\\my-lib.x.dll" = "my_lib_x" :=
  ⟨by decide,
    (base_name_derivation 32 ascii_code_page "C:\\dir.v2\\my-lib.x.dll" (by decide)).1,
    by decide⟩

/-- C6 (as amended): `generate_files` reports failure if and only if at least
one of `<base>.def`, `<base>.cpp`, `<base>.h` cannot be opened for writing.  The
outputs are produced in this order and the run stops at the first that cannot
be opened: the outputs before it have been written and stay on the file
system, that output and the ones after it are not touched. -/
theorem generate_files_failure (bits : Nat) (cp : CodePage) (fs : FileSystem)
    (dllPath : String) (exports : List export_symbol) (h : dllPath.length < 2 ^ bits) :
    generate_files bits cp fs dllPath exports
      = some (generate_all cp fs (base_name_reference cp dllPath) exports) ∧
    (∀ dllName,
      ((generate_all cp fs dllName exports).1 = false ↔
        (fs.can_open (dllName ++ ".def") = false ∨ fs.can_open (dllName ++ ".cpp") = false
          ∨ fs.can_open (dllName ++ ".h") = false)) ∧
      (generate_all cp fs dllName exports).2 =
        if !fs.can_open (dllName ++ ".def") then fs
        else if !fs.can_open (dllName ++ ".cpp") then
          fs.write (dllName ++ ".def") (module_definition_text dllName exports)
        else if !fs.can_open (dllName ++ ".h") then
          (fs.write (dllName ++ ".def") (module_definition_text dllName exports)).write
            (dllName ++ ".cpp") (cpp_file_text cp dllName exports)
        else
          ((fs.write (dllName ++ ".def") (module_definition_text dllName exports)).write
            (dllName ++ ".cpp") (cpp_file_text cp dllName exports)).write
            (dllName ++ ".h") (header_file_text dllName)) := by
  refine ⟨?_, ?_⟩
  · unfold generate_files
    rw [dll_name_of_path_eq bits cp dllPath h]
    rfl
  · intro dllName
    rw [generate_all_eq]
    refine ⟨?_, rfl⟩
    cases fs.can_open (dllName ++ ".def") <;> cases fs.can_open (dllName ++ ".cpp") <;>
      cases fs.can_open (dllName ++ ".h") <;> simp

/-- Witness for C6: a run on `b.dll` in a directory where every output can be
opened. -/
theorem generate_files_failure_witness :
    "b.dll".length < 2 ^ 32 ∧
    generate_files 32 ascii_code_page ⟨fun _ => true, fun _ => none⟩ "b.dll" []
      = some (generate_all ascii_code_page ⟨fun _ => true, fun _ => none⟩
          (base_name_reference ascii_code_page "b.dll") []) :=
  ⟨by decide,
    (generate_files_failure 32 ascii_code_page ⟨fun _ => true, fun _ => none⟩ "b.dll" []
      (by decide)).1⟩

/-- Counterexample for C6: `b.def` can be opened and `b.cpp` cannot; the run
reports failure and the freshly written `b.def` is left on the file system. -/
theorem failed_run_leaves_module_definition :
    (generate_files 32 ascii_code_page ⟨fun path => path != "b.cpp", fun _ => none⟩ "b.dll"
        []).map (fun r => (r.1, r.2.contents "b.def"))
      = some (false, some "LIBRARY b\nEXPORTS\n") := by
  decide

end UIF
